import Mathlib

/-!
Verification of the chaim-cdk binder core against its specification.

The development shallowly embeds two source components:

* the Resource-ID Allocator (`isToken`, `getStableResourceKey`, `buildMatchKey`,
  `generateResourceId`) from the resource-id module, modelling the probed cache
  directory as a finite association list from file names to file states; and
* the deploy-time Ingestion Client Lambda handler (`handler`, `getCredentials`,
  `httpRequest` outcome handling, `buildResponse`) from the ingestion handler,
  modelling the platform (file system read, JSON parsing, Secrets Manager,
  the network and the UUID source) as an explicit environment record and the
  remote calls as an explicit trace.

JavaScript-specific behaviour is embedded explicitly: string truthiness
(empty string is falsy), `parseInt` returning NaN (modelled as `none`),
`String.prototype.length` counting UTF-16 code units, and SHA-256 over the
UTF-8 bytes of the snapshot string (the hash is implemented executably below
and checked against the standard test vectors).
-/

namespace Chaim

/-- JavaScript truthiness of a possibly-absent string: `undefined` and the
empty string are falsy. -/
def truthy (o : Option String) : Bool :=
  match o with
  | none => false
  | some s => s ≠ ""

/-- JavaScript `a || d` for a possibly-absent string `a` and default `d`. -/
def orElseStr (o : Option String) (d : String) : String :=
  match o with
  | none => d
  | some s => if s = "" then d else s

/-- JavaScript `parseInt(s, 10)`: skip leading whitespace, optional sign,
then the longest prefix of decimal digits; no digits means NaN (`none`). -/
def parseIntDec (s : String) : Option Int :=
  let cs := s.toList.dropWhile (fun c => c = ' ' ∨ c = '\t' ∨ c = '\n' ∨ c = '\r')
  let signed : Int × List Char :=
    match cs with
    | '-' :: t => (-1, t)
    | '+' :: t => (1, t)
    | t => (1, t)
  let ds := signed.2.takeWhile Char.isDigit
  if ds.isEmpty then none
  else some (signed.1 * (ds.foldl (fun n c => n * 10 + (c.toNat - 48)) 0 : Nat))

/-- JavaScript `String.prototype.length`: the number of UTF-16 code units
(astral-plane characters count twice). -/
def jsStrLength (s : String) : Nat :=
  s.data.foldl (fun n c => n + (if c.toNat < 0x10000 then 1 else 2)) 0

/-- UTF-8 encoding of one character, as a list of byte values. -/
def utf8EncodeCharNat (c : Char) : List Nat :=
  let n := c.toNat
  if n < 0x80 then [n]
  else if n < 0x800 then
    [0xC0 ||| (n >>> 6), 0x80 ||| (n &&& 0x3F)]
  else if n < 0x10000 then
    [0xE0 ||| (n >>> 12), 0x80 ||| ((n >>> 6) &&& 0x3F), 0x80 ||| (n &&& 0x3F)]
  else
    [0xF0 ||| (n >>> 18), 0x80 ||| ((n >>> 12) &&& 0x3F),
     0x80 ||| ((n >>> 6) &&& 0x3F), 0x80 ||| (n &&& 0x3F)]

/-- UTF-8 byte serialization of a string. -/
def utf8Bytes (s : String) : List Nat :=
  s.data.flatMap utf8EncodeCharNat

/-- Byte size of a string under UTF-8, as Node computes it for file contents. -/
def utf8ByteSize (s : String) : Nat :=
  (utf8Bytes s).length

/-! ### Executable SHA-256 over byte lists (values are `Nat` reduced mod 2^32) -/

/-- Truncation to a 32-bit word. -/
def m32 (x : Nat) : Nat := x &&& 0xFFFFFFFF

/-- Right rotation of a 32-bit word. -/
def rotr32 (n x : Nat) : Nat := ((x >>> n) ||| (x <<< (32 - n))) &&& 0xFFFFFFFF

/-- SHA-256 round constants (the standard table, written in decimal). -/
def sha256K : List Nat :=
  [1116352408, 1899447441, 3049323471, 3921009573, 961987163, 1508970993,
   2453635748, 2870763221, 3624381080, 310598401, 607225278, 1426881987,
   1925078388, 2162078206, 2614888103, 3248222580, 3835390401, 4022224774,
   264347078, 604807628, 770255983, 1249150122, 1555081692, 1996064986,
   2554220882, 2821834349, 2952996808, 3210313671, 3336571891, 3584528711,
   113926993, 338241895, 666307205, 773529912, 1294757372, 1396182291,
   1695183700, 1986661051, 2177026350, 2456956037, 2730485921, 2820302411,
   3259730800, 3345764771, 3516065817, 3600352804, 4094571909, 275423344,
   430227734, 506948616, 659060556, 883997877, 958139571, 1322822218,
   1537002063, 1747873779, 1955562222, 2024104815, 2227730452, 2361852424,
   2428436474, 2756734187, 3204031479, 3329325298]

/-- SHA-256 initial hash value (the standard eight words, in decimal). -/
def sha256H0 : List Nat :=
  [1779033703, 3144134277, 1013904242, 2773480762,
   1359893119, 2600822924, 528734635, 1541459225]

/-- Merkle-Damgard padding: append 0x80, zeros, then the 64-bit big-endian
bit length, reaching a multiple of 64 bytes. -/
def sha256Pad (msg : List Nat) : List Nat :=
  let len := msg.length
  let bitLen := 8 * len
  let zeros := (64 + 56 - ((len + 1) % 64)) % 64
  msg ++ [0x80] ++ List.replicate zeros 0 ++
    [(bitLen >>> 56) &&& 255, (bitLen >>> 48) &&& 255, (bitLen >>> 40) &&& 255,
     (bitLen >>> 32) &&& 255, (bitLen >>> 24) &&& 255, (bitLen >>> 16) &&& 255,
     (bitLen >>> 8) &&& 255, bitLen &&& 255]

/-- Split a byte list into blocks of 64 (structural fuel recursion; each step
consumes at least one element, so `l.length` fuel always suffices). -/
def chunks64Fuel : Nat → List Nat → List (List Nat)
  | 0, _ => []
  | _, [] => []
  | fuel + 1, x :: xs => ((x :: xs).take 64) :: chunks64Fuel fuel ((x :: xs).drop 64)

/-- Split a byte list into blocks of 64. -/
def chunks64 (l : List Nat) : List (List Nat) :=
  chunks64Fuel l.length l

/-- The 16 initial 32-bit message-schedule words of one 64-byte block
(big-endian). -/
def sha256Words (block : List Nat) : List Nat :=
  (List.range 16).map (fun i =>
    ((block.getD (4 * i) 0) <<< 24) ||| ((block.getD (4 * i + 1) 0) <<< 16) |||
    ((block.getD (4 * i + 2) 0) <<< 8) ||| (block.getD (4 * i + 3) 0))

/-- SHA-256 small sigma 0. -/
def ssig0 (x : Nat) : Nat := (rotr32 7 x) ^^^ (rotr32 18 x) ^^^ (x >>> 3)

/-- SHA-256 small sigma 1. -/
def ssig1 (x : Nat) : Nat := (rotr32 17 x) ^^^ (rotr32 19 x) ^^^ (x >>> 10)

/-- SHA-256 big sigma 0. -/
def bsig0 (x : Nat) : Nat := (rotr32 2 x) ^^^ (rotr32 13 x) ^^^ (rotr32 22 x)

/-- SHA-256 big sigma 1. -/
def bsig1 (x : Nat) : Nat := (rotr32 6 x) ^^^ (rotr32 11 x) ^^^ (rotr32 25 x)

/-- One SHA-256 compression step on one 64-byte block. -/
def sha256Compress (hs : List Nat) (block : List Nat) : List Nat :=
  let w := (List.range 48).foldl (fun w _ =>
    let s := w.length
    w ++ [m32 ((w.getD (s - 16) 0) + ssig0 (w.getD (s - 15) 0) +
               (w.getD (s - 7) 0) + ssig1 (w.getD (s - 2) 0))]) (sha256Words block)
  let final := (List.range 64).foldl (fun st i =>
    match st with
    | [a, b, c, d, e, f, g, hh] =>
      let ch := (e &&& f) ^^^ ((e ^^^ 0xFFFFFFFF) &&& g)
      let maj := (a &&& b) ^^^ (a &&& c) ^^^ (b &&& c)
      let t1 := hh + bsig1 e + ch + sha256K.getD i 0 + w.getD i 0
      let t2 := bsig0 a + maj
      [m32 (t1 + t2), a, b, c, m32 (d + t1), e, f, g]
    | other => other) hs
  List.zipWith (fun x y => m32 (x + y)) hs final

/-- SHA-256 digest of a byte list, as eight 32-bit words. -/
def sha256WordsOf (msg : List Nat) : List Nat :=
  (chunks64 (sha256Pad msg)).foldl sha256Compress sha256H0

/-- Lower-case hexadecimal digit. -/
def hexDigitChar (n : Nat) : Char :=
  if n < 10 then Char.ofNat (48 + n) else Char.ofNat (87 + n)

/-- Eight-hex-digit rendering of a 32-bit word. -/
def wordToHex (x : Nat) : List Char :=
  (List.range 8).map (fun i => hexDigitChar ((x >>> (28 - 4 * i)) &&& 15))

/-- Lower-case hex SHA-256 digest of a byte list. -/
def sha256Hex (msg : List Nat) : String :=
  ((sha256WordsOf msg).flatMap wordToHex).asString

/-- The digest Node computes for `crypto.createHash("sha256").update(s)` on a
string: SHA-256 over the UTF-8 bytes. -/
def sha256HexOfString (s : String) : String :=
  sha256Hex (utf8Bytes s)

set_option maxRecDepth 10000

/-- FIPS 180-4 test vector: digest of the empty message. -/
theorem sha256_empty_vector : sha256HexOfString "" =
    "e3b0c44298fc1c149afbf4c8996fb92427ae41e4649b934ca495991b7852b855" := by rfl

/-- FIPS 180-4 test vector: digest of the three-byte message abc. -/
theorem sha256_abc_vector : sha256HexOfString "abc" =
    "ba7816bf8f01cfea414140de5dae2223b00361a396177a9cb410ff61f20015ad" := by rfl

/-! ### Resource-ID Allocator and Stable Identity Resolver (resource-id module) -/

/-- Substring membership check in a list of characters, used to embed
JavaScript `String.prototype.includes`. -/
def listContainsSub (pat : List Char) : List Char → Bool
  | [] => pat.isEmpty
  | c :: rest => pat.isPrefixOf (c :: rest) || listContainsSub pat rest

/-- JavaScript `s.includes(pat)`. -/
def strIncludes (s pat : String) : Bool :=
  listContainsSub pat.toList s.toList

/-- Stable identity for collision detection (all fields synth-stable strings). -/
structure StableIdentity where
  appId : String
  stackName : String
  datastoreType : String
  entityName : String
  stableResourceKey : String
deriving DecidableEq

/-- Check if a value looks like a CDK token (unresolved at synth time):
absent or empty values count as tokens, otherwise a substring test for the
CDK deferred-value markers. -/
def isToken (value : Option String) : Bool :=
  if ¬ truthy value then true
  else strIncludes (value.getD "") "$\x7bToken" || strIncludes (value.getD "") "$\x7bAWS::"

/-- Input state for `getStableResourceKey`: the observable outcomes of the
CDK API accesses the source performs, each of which may throw (`Except.error`)
or yield an absent value (`none`). -/
structure StableKeyInput where
  /-- Result of reading `table.tableName` (may throw, may be undefined). -/
  tableNameAccess : Except Unit (Option String)
  /-- Result of `cdk.Stack.of(construct)` (may throw when outside a stack). -/
  stackOf : Except Unit Unit
  /-- `table.node.defaultChild`, which may be undefined. -/
  defaultChild : Option Unit
  /-- Result of `stack.getLogicalId(cfn)` (may throw, may be undefined). -/
  getLogicalId : Except Unit (Option String)
  /-- `construct.node.path`, always available. -/
  constructPath : String

/-- First preference of `getStableResourceKey`: the physical table name when
readable, truthy and not a token (the whole access is wrapped in try/catch in
the source; a throw falls through). -/
def stableKeyStep1 (inp : StableKeyInput) : Option String :=
  match inp.tableNameAccess with
  | .error _ => none
  | .ok tn => if truthy tn && !(isToken tn) then some ("tableName:" ++ tn.getD "") else none

/-- Second preference of `getStableResourceKey`: the CloudFormation logical
id resolved through the stack, when the stack and the default child are
available and the id is truthy and not a token. -/
def stableKeyStep2 (inp : StableKeyInput) : Option String :=
  match inp.stackOf with
  | .error _ => none
  | .ok _ =>
    match inp.defaultChild with
    | none => none
    | some _ =>
      match inp.getLogicalId with
      | .error _ => none
      | .ok lid =>
        if truthy lid && !(isToken lid) then some ("logicalId:" ++ lid.getD "") else none

/-- Best available stable resource key: physical table name, else
CloudFormation logical id, else construct path. -/
def getStableResourceKey (inp : StableKeyInput) : String :=
  match stableKeyStep1 inp with
  | some k => k
  | none =>
    match stableKeyStep2 inp with
    | some k => k
    | none => "path:" ++ inp.constructPath

/-- Match key string built from the stable identity fields, colon-joined. -/
def buildMatchKey (identity : StableIdentity) : String :=
  identity.appId ++ ":" ++ identity.stackName ++ ":" ++ identity.datastoreType ++ ":" ++
    identity.entityName ++ ":" ++ identity.stableResourceKey

/-- State of one existing file in the probed cache directory:
`unreadable` models a file whose read or JSON parse throws; `parsed`
models a successfully parsed snapshot whose `identity` field may be
absent. -/
inductive CacheEntry
  | unreadable
  | parsed (identity : Option StableIdentity)
deriving DecidableEq

/-- The cache directory: a finite association list from file names to
file states. -/
abbrev CacheDir : Type := List (String × CacheEntry)

/-- Whether the probe loop treats an existing entry as the same resource:
an unreadable file, a snapshot without an `identity` field, and an identity
whose `stableResourceKey` is falsy are all non-matches; otherwise the match
keys are compared. -/
def entryMatches (matchKey : String) (e : CacheEntry) : Bool :=
  match e with
  | .unreadable => false
  | .parsed none => false
  | .parsed (some id) =>
    if id.stableResourceKey = "" then false
    else buildMatchKey id = matchKey

/-- Candidate id at a given probe suffix: the bare base id at suffix 1,
`baseId ++ "__" ++ N` for later suffixes, exactly as the probe loop
constructs them. -/
def candidateIdAt (baseId : String) (suffix : Nat) : String :=
  if suffix = 1 then baseId else baseId ++ "__" ++ Nat.repr suffix

/-- Parameters of `generateResourceId`. -/
structure GenerateResourceIdParams where
  resourceName : String
  entityName : String
  identity : StableIdentity

/-- The probe loop of `generateResourceId`, with explicit fuel standing for
the unbounded `while (true)`: return the candidate when no file exists at it
or the existing file matches, otherwise advance to the next numeric suffix. -/
def generateResourceIdAux (dir : CacheDir) (baseId matchKey : String) :
    Nat → Nat → Option String
  | 0, _ => none
  | fuel + 1, suffix =>
    let cid := candidateIdAt baseId suffix
    match List.lookup (cid ++ ".json") dir with
    | none => some cid
    | some e =>
      if entryMatches matchKey e then some cid
      else generateResourceIdAux dir baseId matchKey fuel (suffix + 1)

/-- Generate a unique resource id with collision handling; fuel one larger
than the number of existing cache entries (shown below to always suffice). -/
def generateResourceId (params : GenerateResourceIdParams) (dir : CacheDir) :
    Option String :=
  generateResourceIdAux dir (params.resourceName ++ "__" ++ params.entityName)
    (buildMatchKey params.identity) (dir.length + 1) 1

/-- Overwrite-or-create a file in the cache directory, modelling the
snapshot write that follows allocation. -/
def writeEntry (dir : CacheDir) (key : String) (e : CacheEntry) : CacheDir :=
  match dir with
  | [] => [(key, e)]
  | p :: rest => if p.1 = key then (key, e) :: rest else p :: writeEntry rest key e

/-! ### Decimal rendering is injective (needed for probe-loop termination) -/

/-- Decode a list of decimal digit characters back to a natural number. -/
def decodeDigits (l : List Char) : Nat :=
  l.foldl (fun a c => 10 * a + (c.toNat - 48)) 0

theorem digitChar_toNat (m : Nat) (hm : m < 10) : (Nat.digitChar m).toNat = 48 + m := by
  interval_cases m <;> rfl

theorem decodeDigits_append_singleton (xs : List Char) (c : Char) :
    decodeDigits (xs ++ [c]) = 10 * decodeDigits xs + (c.toNat - 48) := by
  simp [decodeDigits, List.foldl_append]

theorem toDigitsCore_accum (b : Nat) :
    ∀ (fuel n : Nat) (ds : List Char),
      Nat.toDigitsCore b fuel n ds = Nat.toDigitsCore b fuel n [] ++ ds := by
  intro fuel
  induction fuel with
  | zero => intro n ds; simp [Nat.toDigitsCore]
  | succ f ih =>
    intro n ds
    simp only [Nat.toDigitsCore]
    by_cases h : n / b = 0
    · simp [h]
    · simp only [h, if_false]
      rw [ih (n / b) (Nat.digitChar (n % b) :: ds), ih (n / b) [Nat.digitChar (n % b)]]
      simp

theorem decode_toDigitsCore :
    ∀ (fuel n : Nat), n < fuel → decodeDigits (Nat.toDigitsCore 10 fuel n []) = n := by
  intro fuel
  induction fuel with
  | zero => intro n hn; omega
  | succ f ih =>
    intro n hn
    simp only [Nat.toDigitsCore]
    by_cases h : n / 10 = 0
    · have h10 : n < 10 := by
        rcases Nat.div_eq_zero_iff (by norm_num) |>.mp h with h' | h' <;> omega
      simp only [h, if_true, decodeDigits, List.foldl]
      rw [digitChar_toNat (n % 10) (Nat.mod_lt n (by norm_num))]
      omega
    · simp only [h, if_false]
      rw [toDigitsCore_accum 10 f (n / 10) [Nat.digitChar (n % 10)]]
      rw [decodeDigits_append_singleton]
      have hdiv : n / 10 < n := Nat.div_lt_self (by omega) (by norm_num)
      rw [ih (n / 10) (by omega)]
      rw [digitChar_toNat (n % 10) (Nat.mod_lt n (by omega))]
      omega

theorem natRepr_injective : Function.Injective Nat.repr := by
  intro m n h
  have hdata : (Nat.toDigits 10 m) = (Nat.toDigits 10 n) := by
    have h1 : (Nat.repr m).data = (Nat.repr n).data := congrArg String.data h
    simpa [Nat.repr, Nat.toDigits] using h1
  have hm : decodeDigits (Nat.toDigits 10 m) = m :=
    decode_toDigitsCore (m + 1) m (Nat.lt_succ_self m)
  have hn : decodeDigits (Nat.toDigits 10 n) = n :=
    decode_toDigitsCore (n + 1) n (Nat.lt_succ_self n)
  rw [← hm, ← hn, hdata]

theorem strAppend_cancel_left {a b c : String} (h : a ++ b = a ++ c) : b = c := by
  apply String.ext
  have hd := congrArg String.data h
  rw [String.data_append, String.data_append] at hd
  exact List.append_cancel_left hd

theorem strAppend_cancel_right {a b c : String} (h : a ++ c = b ++ c) : a = b := by
  apply String.ext
  have hd := congrArg String.data h
  rw [String.data_append, String.data_append] at hd
  exact List.append_cancel_right hd

theorem candidateIdAt_injOn (baseId : String) {i j : Nat} (hi : 1 ≤ i) (hj : 1 ≤ j)
    (h : candidateIdAt baseId i = candidateIdAt baseId j) : i = j := by
  unfold candidateIdAt at h
  by_cases h1 : i = 1 <;> by_cases h2 : j = 1
  · omega
  · rw [if_pos h1, if_neg h2] at h
    have hl := congrArg String.length h
    rw [String.length_append, String.length_append] at hl
    have : ("__" : String).length = 2 := rfl
    omega
  · rw [if_neg h1, if_pos h2] at h
    have hl := congrArg String.length h
    rw [String.length_append, String.length_append] at hl
    have : ("__" : String).length = 2 := rfl
    omega
  · rw [if_neg h1, if_neg h2] at h
    have hr : Nat.repr i = Nat.repr j := strAppend_cancel_left h
    exact natRepr_injective hr

/-! ### Probe-loop lemmas -/

theorem lookup_isSome_mem_keys {dir : List (String × CacheEntry)} {k : String}
    (h : (List.lookup k dir).isSome) : k ∈ dir.map Prod.fst := by
  induction dir with
  | nil => simp [List.lookup] at h
  | cons a rest ih =>
    rw [List.lookup] at h
    by_cases hk : k = a.1
    · simp [hk]
    · have hb : (k == a.1) = false := beq_false_of_ne hk
      rw [hb] at h
      simp only [List.map_cons, List.mem_cons]
      exact Or.inr (ih h)

theorem lookup_mem {dir : List (String × CacheEntry)} {k : String} {e : CacheEntry}
    (h : List.lookup k dir = some e) : (k, e) ∈ dir := by
  induction dir with
  | nil => simp [List.lookup] at h
  | cons a rest ih =>
    rw [List.lookup] at h
    by_cases hk : k = a.1
    · rw [beq_iff_eq.mpr hk] at h
      simp only [Option.some.injEq] at h
      subst h hk
      simp
    · rw [beq_false_of_ne hk] at h
      exact List.mem_cons_of_mem a (ih h)

theorem probes_le_length (dir : List (String × CacheEntry)) (K : Nat → String)
    (hinj : ∀ i j, K i = K j → i = j) (j : Nat)
    (hp : ∀ i < j, (List.lookup (K i) dir).isSome) : j ≤ dir.length := by
  have hnodup : ((List.range j).map K).Nodup :=
    List.Nodup.map_on (fun x _ y _ h => hinj x y h) (List.nodup_range j)
  have hsub : (List.range j).map K ⊆ dir.map Prod.fst := by
    intro x hx
    simp only [List.mem_map, List.mem_range] at hx
    obtain ⟨i, hi, rfl⟩ := hx
    exact lookup_isSome_mem_keys (hp i hi)
  have hle := (hnodup.subperm hsub).length_le
  simpa using hle

theorem aux_step_absent {dir : CacheDir} {baseId mk : String} {s : Nat} (f : Nat)
    (h : List.lookup (candidateIdAt baseId s ++ ".json") dir = none) :
    generateResourceIdAux dir baseId mk (f + 1) s = some (candidateIdAt baseId s) := by
  rw [generateResourceIdAux, h]

theorem aux_step_match {dir : CacheDir} {baseId mk : String} {s : Nat} (f : Nat)
    {e : CacheEntry} (h : List.lookup (candidateIdAt baseId s ++ ".json") dir = some e)
    (hm : entryMatches mk e = true) :
    generateResourceIdAux dir baseId mk (f + 1) s = some (candidateIdAt baseId s) := by
  rw [generateResourceIdAux, h]
  simp [hm]

theorem aux_step_advance {dir : CacheDir} {baseId mk : String} {s : Nat} (f : Nat)
    {e : CacheEntry} (h : List.lookup (candidateIdAt baseId s ++ ".json") dir = some e)
    (hm : entryMatches mk e = false) :
    generateResourceIdAux dir baseId mk (f + 1) s =
      generateResourceIdAux dir baseId mk f (s + 1) := by
  rw [generateResourceIdAux, h]
  simp [hm]

theorem aux_none_probed (dir : CacheDir) (baseId mk : String) :
    ∀ (fuel s : Nat), generateResourceIdAux dir baseId mk fuel s = none →
      ∀ i < fuel, (List.lookup (candidateIdAt baseId (s + i) ++ ".json") dir).isSome := by
  intro fuel
  induction fuel with
  | zero => intro s _ i hi; omega
  | succ f ih =>
    intro s hnone i hi
    cases hl : List.lookup (candidateIdAt baseId s ++ ".json") dir with
    | none => rw [aux_step_absent f hl] at hnone; simp at hnone
    | some e =>
      by_cases hm : entryMatches mk e = true
      · rw [aux_step_match f hl hm] at hnone; simp at hnone
      · rw [aux_step_advance f hl (eq_false_of_ne_true hm)] at hnone
        cases i with
        | zero => rw [Nat.add_zero, hl]; rfl
        | succ i' =>
          have hstep := ih (s + 1) hnone i' (by omega)
          have harith : s + 1 + i' = s + (i' + 1) := by omega
          rwa [harith] at hstep

theorem aux_some_spec (dir : CacheDir) (baseId mk : String) :
    ∀ (fuel s : Nat) (r : String), generateResourceIdAux dir baseId mk fuel s = some r →
      ∃ j, r = candidateIdAt baseId (s + j) ∧
        (List.lookup (r ++ ".json") dir = none ∨
          ∃ e, List.lookup (r ++ ".json") dir = some e ∧ entryMatches mk e = true) ∧
        ∀ i < j, ∃ e, List.lookup (candidateIdAt baseId (s + i) ++ ".json") dir = some e ∧
          entryMatches mk e = false := by
  intro fuel
  induction fuel with
  | zero => intro s r hr; rw [generateResourceIdAux] at hr; simp at hr
  | succ f ih =>
    intro s r hr
    cases hl : List.lookup (candidateIdAt baseId s ++ ".json") dir with
    | none =>
      rw [aux_step_absent f hl] at hr
      simp only [Option.some.injEq] at hr
      subst hr
      exact ⟨0, by simp, Or.inl hl, by omega⟩
    | some e =>
      by_cases hm : entryMatches mk e = true
      · rw [aux_step_match f hl hm] at hr
        simp only [Option.some.injEq] at hr
        subst hr
        exact ⟨0, by simp, Or.inr ⟨e, hl, hm⟩, by omega⟩
      · rw [aux_step_advance f hl (eq_false_of_ne_true hm)] at hr
        obtain ⟨j, hj1, hj2, hj3⟩ := ih (s + 1) r hr
        refine ⟨j + 1, ?_, hj2, ?_⟩
        · have harith : s + 1 + j = s + (j + 1) := by omega
          rwa [harith] at hj1
        · intro i hi
          cases i with
          | zero => exact ⟨e, by rw [Nat.add_zero]; exact hl, eq_false_of_ne_true hm⟩
          | succ i' =>
            have hstep := hj3 i' (by omega)
            have harith : s + 1 + i' = s + (i' + 1) := by omega
            rwa [harith] at hstep

theorem aux_reaches (dir : CacheDir) (baseId mk : String) :
    ∀ (j s fuel : Nat),
      (∀ i < j, ∃ e, List.lookup (candidateIdAt baseId (s + i) ++ ".json") dir = some e ∧
        entryMatches mk e = false) →
      (List.lookup (candidateIdAt baseId (s + j) ++ ".json") dir = none ∨
        ∃ e, List.lookup (candidateIdAt baseId (s + j) ++ ".json") dir = some e ∧
          entryMatches mk e = true) →
      j < fuel →
      generateResourceIdAux dir baseId mk fuel s = some (candidateIdAt baseId (s + j)) := by
  intro j
  induction j with
  | zero =>
    intro s fuel _ hend hfuel
    cases fuel with
    | zero => omega
    | succ f =>
      rw [Nat.add_zero] at hend ⊢
      rcases hend with hnone | ⟨e, he, hm⟩
      · exact aux_step_absent f hnone
      · exact aux_step_match f he hm
  | succ j' ih =>
    intro s fuel hpre hend hfuel
    cases fuel with
    | zero => omega
    | succ f =>
      obtain ⟨e, he, hm⟩ := hpre 0 (by omega)
      rw [Nat.add_zero] at he
      rw [aux_step_advance f he hm]
      have harith : s + (j' + 1) = s + 1 + j' := by omega
      rw [harith]
      apply ih (s + 1) f
      · intro i hi
        have hstep := hpre (i + 1) (by omega)
        have ha2 : s + (i + 1) = s + 1 + i := by omega
        rwa [ha2] at hstep
      · rwa [harith] at hend
      · omega

theorem generateResourceId_isSome (p : GenerateResourceIdParams) (dir : CacheDir) :
    ∃ r, generateResourceId p dir = some r := by
  unfold generateResourceId
  cases hres : generateResourceIdAux dir (p.resourceName ++ "__" ++ p.entityName)
      (buildMatchKey p.identity) (dir.length + 1) 1 with
  | some r => exact ⟨r, rfl⟩
  | none =>
    exfalso
    have hp := aux_none_probed dir (p.resourceName ++ "__" ++ p.entityName)
      (buildMatchKey p.identity) (dir.length + 1) 1 hres
    have hle := probes_le_length dir
      (fun i => candidateIdAt (p.resourceName ++ "__" ++ p.entityName) (1 + i) ++ ".json")
      (fun i j h => by
        have hc : candidateIdAt (p.resourceName ++ "__" ++ p.entityName) (1 + i) =
            candidateIdAt (p.resourceName ++ "__" ++ p.entityName) (1 + j) :=
          strAppend_cancel_right h
        have := candidateIdAt_injOn (p.resourceName ++ "__" ++ p.entityName)
          (by omega) (by omega) hc
        omega)
      (dir.length + 1)
      (fun i hi => hp i hi)
    omega

/-! ### Snapshot-write lemmas -/

theorem lookup_writeEntry_self (dir : CacheDir) (key : String) (e : CacheEntry) :
    List.lookup key (writeEntry dir key e) = some e := by
  induction dir with
  | nil => simp [writeEntry, List.lookup]
  | cons p rest ih =>
    obtain ⟨pk, pv⟩ := p
    rw [writeEntry]
    by_cases h : pk = key
    · simp [h, List.lookup]
    · simp only [if_neg (by simpa using h), List.lookup,
        beq_false_of_ne (fun hk => h hk.symm)]
      exact ih

theorem lookup_writeEntry_ne (dir : CacheDir) (key k' : String) (e : CacheEntry)
    (hne : k' ≠ key) :
    List.lookup k' (writeEntry dir key e) = List.lookup k' dir := by
  induction dir with
  | nil => simp [writeEntry, List.lookup, beq_false_of_ne hne]
  | cons p rest ih =>
    obtain ⟨pk, pv⟩ := p
    rw [writeEntry]
    by_cases h : pk = key
    · simp only [h, if_pos rfl, List.lookup, beq_false_of_ne hne]
    · simp only [if_neg (by simpa using h), List.lookup]
      by_cases hk : k' = pk
      · rw [beq_iff_eq.mpr hk]
      · rw [beq_false_of_ne hk]
        exact ih

theorem length_writeEntry_ge (dir : CacheDir) (key : String) (e : CacheEntry) :
    dir.length ≤ (writeEntry dir key e).length := by
  induction dir with
  | nil => simp [writeEntry]
  | cons p rest ih =>
    obtain ⟨pk, pv⟩ := p
    rw [writeEntry]
    by_cases h : pk = key
    · simp [h]
    · rw [if_neg (by simpa using h)]
      simpa using ih

theorem mem_writeEntry {dir : CacheDir} {key : String} {e : CacheEntry} :
    ∀ x ∈ writeEntry dir key e, x.2 = e ∨ x ∈ dir := by
  induction dir with
  | nil =>
    intro x hx
    rw [writeEntry] at hx
    simp at hx
    left; rw [hx]
  | cons p rest ih =>
    intro x hx
    obtain ⟨pk, pv⟩ := p
    rw [writeEntry] at hx
    by_cases h : pk = key
    · rw [if_pos (by simpa using h)] at hx
      rcases List.mem_cons.mp hx with h1 | h1
      · left; rw [h1]
      · right; exact List.mem_cons_of_mem _ h1
    · rw [if_neg (by simpa using h)] at hx
      rcases List.mem_cons.mp hx with h1 | h1
      · right; rw [h1]; exact List.mem_cons_self _ rest
      · rcases ih x h1 with h2 | h2
        · left; exact h2
        · right; exact List.mem_cons_of_mem _ h2

/-! ### Match keys differ whenever only the stable resource key differs -/

theorem buildMatchKey_ne {id1 id2 : StableIdentity}
    (h1 : id1.appId = id2.appId) (h2 : id1.stackName = id2.stackName)
    (h3 : id1.datastoreType = id2.datastoreType) (h4 : id1.entityName = id2.entityName)
    (h5 : id1.stableResourceKey ≠ id2.stableResourceKey) :
    buildMatchKey id1 ≠ buildMatchKey id2 := by
  intro heq
  unfold buildMatchKey at heq
  rw [h1, h2, h3, h4] at heq
  exact h5 (strAppend_cancel_left heq)

/-! ### Shared concrete data for witnesses and counterexamples -/

/-- A concrete stable identity used by witnesses. -/
def demoId1 : StableIdentity := ⟨"acme", "Stack1", "dynamodb", "User", "tableName:x"⟩

/-- A second identity differing from `demoId1` only in the stable resource key. -/
def demoId2 : StableIdentity := ⟨"acme", "Stack1", "dynamodb", "User", "tableName:y"⟩

/-- Allocator parameters carrying `demoId1`. -/
def demoP1 : GenerateResourceIdParams := ⟨"T", "User", demoId1⟩

/-- Allocator parameters carrying `demoId2`. -/
def demoP2 : GenerateResourceIdParams := ⟨"T", "User", demoId2⟩

/-! ### Claim theorems for the Resource-ID Allocator -/

/-- C5: for every finite cache-directory state the probe loop of
`generateResourceId` terminates with an allocated id — fuel of one iteration
per existing entry plus one always suffices — and an entry that is unreadable
or lacks an identity is treated as a non-match, the loop advancing to the next
numeric suffix rather than retrying the same one. -/
theorem probe_loop_terminates :
    (∀ (p : GenerateResourceIdParams) (dir : CacheDir),
      ∃ r, generateResourceId p dir = some r) ∧
    (∀ mk, entryMatches mk CacheEntry.unreadable = false ∧
      entryMatches mk (CacheEntry.parsed none) = false) ∧
    (∀ (dir : CacheDir) (baseId mk : String) (f s : Nat) (e : CacheEntry),
      List.lookup (candidateIdAt baseId s ++ ".json") dir = some e →
      entryMatches mk e = false →
      generateResourceIdAux dir baseId mk (f + 1) s =
        generateResourceIdAux dir baseId mk f (s + 1)) :=
  ⟨generateResourceId_isSome,
   fun _ => ⟨rfl, rfl⟩,
   fun _ _ _ f _ _ h hm => aux_step_advance f h hm⟩

/-- Witness for C5 at a concrete one-entry directory holding an unreadable
file. -/
theorem probe_loop_terminates_witness :
    (∃ r, generateResourceId demoP1 [("T__User.json", CacheEntry.unreadable)] = some r) ∧
    generateResourceIdAux [("T__User.json", CacheEntry.unreadable)] "T__User" "k" 2 1 =
      generateResourceIdAux [("T__User.json", CacheEntry.unreadable)] "T__User" "k" 1 2 :=
  ⟨probe_loop_terminates.1 demoP1 [("T__User.json", CacheEntry.unreadable)],
   probe_loop_terminates.2.2 [("T__User.json", CacheEntry.unreadable)] "T__User" "k" 1 1
     CacheEntry.unreadable (by decide) (by decide)⟩

/-- C4: allocation is idempotent — with the cache state unchanged a second
call returns the very same id, and this includes the re-synthesis state in
which the entry at the returned id exists and carries the calling identity
(hence the same match key): writing the snapshot at the returned id and
re-running the allocator still returns the same id. -/
theorem generateResourceId_idempotent (p : GenerateResourceIdParams) (dir : CacheDir)
    (hsrk : p.identity.stableResourceKey ≠ "") {r : String}
    (hr : generateResourceId p dir = some r) :
    generateResourceId p dir = some r ∧
    generateResourceId p
      (writeEntry dir (r ++ ".json") (CacheEntry.parsed (some p.identity))) = some r := by
  refine ⟨hr, ?_⟩
  unfold generateResourceId at hr ⊢
  obtain ⟨j, hj1, hj2, hj3⟩ := aux_some_spec dir (p.resourceName ++ "__" ++ p.entityName)
    (buildMatchKey p.identity) (dir.length + 1) 1 r hr
  have hjle : j ≤ dir.length := by
    apply probes_le_length dir
      (fun i => candidateIdAt (p.resourceName ++ "__" ++ p.entityName) (1 + i) ++ ".json")
      (fun a b hab => by
        have hc := strAppend_cancel_right hab
        have := candidateIdAt_injOn (p.resourceName ++ "__" ++ p.entityName)
          (by omega) (by omega) hc
        omega)
      j
    intro i hi
    obtain ⟨e, he, _⟩ := hj3 i hi
    rw [he]; rfl
  have key_ne : ∀ i < j,
      candidateIdAt (p.resourceName ++ "__" ++ p.entityName) (1 + i) ++ ".json" ≠
        r ++ ".json" := by
    intro i hi hkeq
    have hc := strAppend_cancel_right hkeq
    rw [hj1] at hc
    have := candidateIdAt_injOn (p.resourceName ++ "__" ++ p.entityName)
      (by omega) (by omega) hc
    omega
  conv_rhs => rw [hj1]
  apply aux_reaches
  · intro i hi
    obtain ⟨e, he, hm⟩ := hj3 i hi
    refine ⟨e, ?_, hm⟩
    rw [lookup_writeEntry_ne dir _ _ _ (key_ne i hi)]
    exact he
  · right
    refine ⟨CacheEntry.parsed (some p.identity), ?_, ?_⟩
    · rw [← hj1]
      exact lookup_writeEntry_self dir (r ++ ".json") (CacheEntry.parsed (some p.identity))
    · simp [entryMatches, hsrk]
  · have := length_writeEntry_ge dir (r ++ ".json") (CacheEntry.parsed (some p.identity))
    omega

/-- Witness for C4 at the empty cache directory. -/
theorem generateResourceId_idempotent_witness :
    generateResourceId demoP1 [] = some "T__User" ∧
    generateResourceId demoP1
      (writeEntry [] ("T__User" ++ ".json") (CacheEntry.parsed (some demoP1.identity))) =
      some "T__User" :=
  generateResourceId_idempotent demoP1 [] (by decide) (by decide)

/-- C3 (amended): two allocator calls with the same `resourceName` and
`entityName` but different `stableResourceKey` (hence different match keys),
where the first call's snapshot has been written at its returned id, always
return two distinct ids — the second probe can never end at the first call's
slot, which now holds a snapshot whose match key cannot equal the second
call's; and provided additionally that no entry of the initial cache
directory matches the second call's match key, the second id is the base id
extended with a numeric suffix `__N` for some `N ≥ 2`. -/
theorem generateResourceId_collision (rn en : String) (id1 id2 : StableIdentity)
    (h1 : id1.appId = id2.appId) (h2 : id1.stackName = id2.stackName)
    (h3 : id1.datastoreType = id2.datastoreType) (h4 : id1.entityName = id2.entityName)
    (h5 : id1.stableResourceKey ≠ id2.stableResourceKey)
    (dir : CacheDir)
    {r1 : String}
    (hr1 : generateResourceId ⟨rn, en, id1⟩ dir = some r1) :
    ∃ r2, generateResourceId ⟨rn, en, id2⟩
        (writeEntry dir (r1 ++ ".json") (CacheEntry.parsed (some id1))) = some r2 ∧
      r2 ≠ r1 ∧
      ((∀ x ∈ dir, entryMatches (buildMatchKey id2) x.2 = false) →
        ∃ N, 2 ≤ N ∧ r2 = rn ++ "__" ++ en ++ "__" ++ Nat.repr N) := by
  have hmk : buildMatchKey id1 ≠ buildMatchKey id2 := buildMatchKey_ne h1 h2 h3 h4 h5
  have hwr : entryMatches (buildMatchKey id2) (CacheEntry.parsed (some id1)) = false := by
    by_cases hz : id1.stableResourceKey = ""
    · simp [entryMatches, hz]
    · simp [entryMatches, hz, hmk]
  obtain ⟨r2, hr2⟩ := generateResourceId_isSome ⟨rn, en, id2⟩
    (writeEntry dir (r1 ++ ".json") (CacheEntry.parsed (some id1)))
  have hr2' := hr2
  unfold generateResourceId at hr2'
  obtain ⟨j2, hj21, hj22, hj23⟩ := aux_some_spec
    (writeEntry dir (r1 ++ ".json") (CacheEntry.parsed (some id1)))
    (rn ++ "__" ++ en) (buildMatchKey id2) _ 1 r2 hr2'
  have hr1some : List.lookup (r1 ++ ".json")
      (writeEntry dir (r1 ++ ".json") (CacheEntry.parsed (some id1))) =
      some (CacheEntry.parsed (some id1)) :=
    lookup_writeEntry_self dir (r1 ++ ".json") (CacheEntry.parsed (some id1))
  have hne : r2 ≠ r1 := by
    intro heq
    rcases hj22 with hnone | ⟨e, he, hm⟩
    · rw [heq, hr1some] at hnone
      exact Option.noConfusion hnone
    · rw [heq, hr1some] at he
      have he' : CacheEntry.parsed (some id1) = e := (Option.some.injEq _ _).mp he
      rw [← he', hwr] at hm
      exact Bool.noConfusion hm
  refine ⟨r2, hr2, hne, ?_⟩
  intro hno
  have hno' : ∀ x ∈ writeEntry dir (r1 ++ ".json") (CacheEntry.parsed (some id1)),
      entryMatches (buildMatchKey id2) x.2 = false := by
    intro x hx
    rcases mem_writeEntry x hx with hxe | hxm
    · rw [hxe]; exact hwr
    · exact hno x hxm
  have hr2none : List.lookup (r2 ++ ".json")
      (writeEntry dir (r1 ++ ".json") (CacheEntry.parsed (some id1))) = none := by
    rcases hj22 with hnone | ⟨e, he, hm⟩
    · exact hnone
    · exfalso
      have hmem := lookup_mem he
      have hfalse := hno' (r2 ++ ".json", e) hmem
      simp only at hfalse
      rw [hfalse] at hm
      exact Bool.noConfusion hm
  have hbase_some : (List.lookup (candidateIdAt (rn ++ "__" ++ en) 1 ++ ".json")
      (writeEntry dir (r1 ++ ".json") (CacheEntry.parsed (some id1)))).isSome := by
    unfold generateResourceId at hr1
    obtain ⟨j1, hj11, hj12, hj13⟩ := aux_some_spec dir (rn ++ "__" ++ en)
      (buildMatchKey id1) _ 1 r1 hr1
    by_cases hkey : candidateIdAt (rn ++ "__" ++ en) 1 ++ ".json" = r1 ++ ".json"
    · rw [hkey, hr1some]; rfl
    · rw [lookup_writeEntry_ne dir _ _ _ hkey]
      by_cases hj10 : j1 = 0
      · exfalso
        apply hkey
        rw [hj11, hj10]
      · obtain ⟨e, he, _⟩ := hj13 0 (by omega)
        rw [Nat.add_zero] at he
        rw [he]; rfl
  have hj2ge : 1 ≤ j2 := by
    by_contra hlt
    have hj20 : j2 = 0 := by omega
    rw [hj20, Nat.add_zero] at hj21
    rw [← hj21] at hbase_some
    rw [hr2none] at hbase_some
    exact Bool.noConfusion hbase_some
  refine ⟨1 + j2, by omega, ?_⟩
  rw [hj21]
  unfold candidateIdAt
  rw [if_neg (by omega)]

/-- Witness for C3 at the empty cache directory: the second id is
`T__User__2`. -/
theorem generateResourceId_collision_witness :
    ∃ r2, generateResourceId demoP2
        (writeEntry [] ("T__User" ++ ".json") (CacheEntry.parsed (some demoId1))) = some r2 ∧
      r2 ≠ "T__User" ∧ ∃ N, 2 ≤ N ∧ r2 = "T" ++ "__" ++ "User" ++ "__" ++ Nat.repr N := by
  obtain ⟨r2, ha, hb, hc⟩ := @generateResourceId_collision "T" "User" demoId1 demoId2
    rfl rfl rfl rfl (by decide) [] "T__User" (by decide)
  exact ⟨r2, ha, hb, hc (by simp)⟩

/-- Counterexample to C3 as stated: when the initial cache directory already
holds an entry at the base id whose match key equals the second call's, the
second call returns the bare base id with no numeric suffix (the two ids are
still distinct, but the second is not of the form `base__N`). -/
theorem generateResourceId_collision_counterexample :
    generateResourceId demoP1 [("T__User.json", CacheEntry.parsed (some demoId2))] =
      some "T__User__2" ∧
    generateResourceId demoP2
      [("T__User.json", CacheEntry.parsed (some demoId2)),
       ("T__User__2.json", CacheEntry.parsed (some demoId1))] = some "T__User" ∧
    ∀ N : Nat, "T__User" ≠ "T__User" ++ "__" ++ Nat.repr N := by
  refine ⟨by decide, by decide, ?_⟩
  intro N h
  have hl := congrArg String.length h
  rw [String.length_append, String.length_append] at hl
  have h2 : ("__" : String).length = 2 := rfl
  omega

/-! ### Claim theorem for the Stable Identity Resolver -/

/-- C6: `getStableResourceKey` is total and returns exactly one of the three
forms, first match wins: the `tableName:` form when the physical name is
available and not an unresolved token, else the `logicalId:` form when a
logical id resolves through the stack and is not a token, else the always
available `path:` fallback. -/
theorem getStableResourceKey_total (inp : StableKeyInput) :
    ((∃ k, stableKeyStep1 inp = some k ∧ getStableResourceKey inp = k) ∨
      (stableKeyStep1 inp = none ∧
        ∃ k, stableKeyStep2 inp = some k ∧ getStableResourceKey inp = k) ∨
      (stableKeyStep1 inp = none ∧ stableKeyStep2 inp = none ∧
        getStableResourceKey inp = "path:" ++ inp.constructPath)) ∧
    (∀ k, stableKeyStep1 inp = some k → ∃ tn, inp.tableNameAccess = Except.ok tn ∧
      truthy tn = true ∧ isToken tn = false ∧ k = "tableName:" ++ tn.getD "") ∧
    (∀ k, stableKeyStep2 inp = some k → ∃ lid, inp.getLogicalId = Except.ok lid ∧
      truthy lid = true ∧ isToken lid = false ∧ k = "logicalId:" ++ lid.getD "") := by
  refine ⟨?_, ?_, ?_⟩
  · unfold getStableResourceKey
    cases h1 : stableKeyStep1 inp with
    | some k => left; exact ⟨k, rfl, rfl⟩
    | none =>
      cases h2 : stableKeyStep2 inp with
      | some k => right; left; exact ⟨rfl, k, rfl, rfl⟩
      | none => right; right; exact ⟨rfl, rfl, rfl⟩
  · intro k hk
    unfold stableKeyStep1 at hk
    rcases hA : inp.tableNameAccess with u | tn
    · simp [hA] at hk
    · simp only [hA] at hk
      by_cases hb : (truthy tn && !(isToken tn)) = true
      · rw [if_pos hb] at hk
        rcases Bool.and_eq_true_iff.mp hb with ⟨hb1, hb2⟩
        exact ⟨tn, rfl, hb1, (by simpa using hb2),
          ((Option.some.injEq _ _).mp hk).symm⟩
      · rw [if_neg hb] at hk
        exact Option.noConfusion hk
  · intro k hk
    unfold stableKeyStep2 at hk
    rcases hS : inp.stackOf with u | u2
    · simp [hS] at hk
    · simp only [hS] at hk
      rcases hD : inp.defaultChild with _ | u3
      · simp [hD] at hk
      · simp only [hD] at hk
        rcases hL : inp.getLogicalId with u4 | lid
        · simp [hL] at hk
        · simp only [hL] at hk
          by_cases hb : (truthy lid && !(isToken lid)) = true
          · rw [if_pos hb] at hk
            rcases Bool.and_eq_true_iff.mp hb with ⟨hb1, hb2⟩
            exact ⟨lid, rfl, hb1, (by simpa using hb2),
              ((Option.some.injEq _ _).mp hk).symm⟩
          · rw [if_neg hb] at hk
            exact Option.noConfusion hk

/-- A concrete resolver input whose physical name is available. -/
def demoKeyInput : StableKeyInput :=
  ⟨Except.ok (some "tbl"), Except.ok (), some (), Except.ok (some "LID"), "App/Stack/Table"⟩

/-- Witness for C6: on `demoKeyInput` the first preference fires and the key
has the `tableName:` form. -/
theorem getStableResourceKey_total_witness :
    (∃ tn, demoKeyInput.tableNameAccess = Except.ok tn ∧ truthy tn = true ∧
      isToken tn = false ∧ "tableName:tbl" = "tableName:" ++ tn.getD "") ∧
    getStableResourceKey demoKeyInput = "tableName:tbl" :=
  ⟨(getStableResourceKey_total demoKeyInput).2.1 "tableName:tbl" (by decide), by decide⟩

/-! ### Ingestion Client: data model of the deploy-time Lambda handler -/

/-- The `dataStore` object of the bundled snapshot JSON, as far as the
handler reads it (`snapshotPayload.dataStore.arn`). -/
structure SnapshotDataStore where
  arn : Option String
deriving DecidableEq

/-- The fields of the bundled snapshot JSON the handler reads; any of them
may be absent in the parsed document. -/
structure SnapshotPayload where
  appId : Option String
  resourceId : Option String
  stackName : Option String
  datastoreType : Option String
  dataStore : Option SnapshotDataStore
  capturedAt : Option String
deriving DecidableEq

/-- Parsed secret JSON: `apiKey` and `apiSecret` may be absent. -/
structure SecretJson where
  apiKey : Option String
  apiSecret : Option String
deriving DecidableEq

/-- The Secrets Manager `GetSecretValue` response: `SecretString` may be
absent. -/
structure SecretsResponse where
  secretString : Option String
deriving DecidableEq

/-- Body of the `POST /ingest/snapshot-ref` call: the UPSERT commit carries
`contentHash` and `datastoreArn`, the DELETE deactivation notice omits both. -/
structure SnapshotRefPayload where
  action : String
  appId : Option String
  eventId : String
  contentHash : Option String
  datastoreType : Option String
  datastoreArn : Option String
  resourceId : Option String
  stackName : Option String
deriving DecidableEq

/-- One remote call made by the handler, in order of emission. -/
inductive NetCall
  | secretsGet (secretId : String)
  | postUploadUrl (url : String) (appId : Option String) (eventId : String)
      (contentHash : String)
  | putS3 (url : String) (body : String)
  | postSnapshotRef (url : String) (payload : SnapshotRefPayload)
deriving DecidableEq

/-- Outcome of one HTTP request as decided by the network: a status/body
response, a connection error, or expiry of the request timeout. -/
inductive NetOutcome
  | respond (status : Nat) (body : String)
  | netError (msg : String)
  | timeout
deriving DecidableEq

/-- The platform environment of one handler invocation: the CloudFormation
event fields the handler touches, the process environment, and oracles for
the file system, JSON parsing, Secrets Manager and the network. The
`requestId` field models the orchestrator request identifier
(`event.RequestId`), which the source never reads. -/
structure Env where
  requestType : String
  requestId : String
  failureModeEnv : Option String
  apiBaseUrlEnv : Option String
  maxSnapshotBytesEnv : Option String
  secretNameEnv : Option String
  apiKeyEnv : Option String
  apiSecretEnv : Option String
  /-- The `crypto.randomUUID()` draw of this invocation. -/
  uuid : String
  /-- `new Date().toISOString()` at failure-response time. -/
  now : String
  /-- Result of `fs.readFileSync("./snapshot.json", "utf-8")`. -/
  fileRead : Except String String
  /-- Result of `JSON.parse` on the snapshot text. -/
  parseSnapshot : String → Except String SnapshotPayload
  /-- Result of the Secrets Manager `GetSecretValue` call. -/
  secretsFetch : Except String SecretsResponse
  /-- Result of `JSON.parse` on the secret string. -/
  parseSecret : String → Except String SecretJson
  /-- The network: outcome of each remote call. -/
  net : NetCall → NetOutcome
  /-- Result of `JSON.parse` on the upload-url response body, projected to
  the one field the handler uses (`uploadUrl`, possibly absent). -/
  parseUploadUrlResp : String → Except String (Option String)
  /-- Result of `JSON.parse` on the snapshot-ref response body (the parsed
  value itself is unused by the handler, but a parse failure throws). -/
  parseSnapshotRefResp : String → Except String Unit

/-- Default API base URL of the source. -/
def DEFAULT_API_BASE_URL : String := "https://api.chaim.co"

/-- Default maximum snapshot size of the source (10 MiB). -/
def DEFAULT_MAX_SNAPSHOT_BYTES : Nat := 10 * 1024 * 1024

/-- Request timeout of the source in milliseconds. -/
def DEFAULT_REQUEST_TIMEOUT_MS : Nat := 30000

/-- How `httpRequest` maps one network outcome: 2xx resolves with the body,
other statuses reject with `HTTP <status>: <body>`, connection errors reject
with their message, and the 30-second timeout destroys the request and
rejects with `Request timeout`. -/
def httpOutcome (o : NetOutcome) : Except String String :=
  match o with
  | .respond status body =>
    if 200 ≤ status ∧ status < 300 then Except.ok body
    else Except.error ("HTTP " ++ Nat.repr status ++ ": " ++ body)
  | .netError m => Except.error m
  | .timeout => Except.error "Request timeout"

/-- `getCredentials`: Secrets Manager mode when `SECRET_NAME` is truthy
(fetch, reject empty secret, parse, require truthy `apiKey`/`apiSecret`),
otherwise direct mode from `API_KEY`/`API_SECRET`. Returns the emitted
calls and either the credentials or the thrown message. -/
def getCredentials (env : Env) : List NetCall × Except String (String × String) :=
  if truthy env.secretNameEnv then
    let req := NetCall.secretsGet (env.secretNameEnv.getD "")
    match env.secretsFetch with
    | .error m => ([req], .error m)
    | .ok resp =>
      if ¬ truthy resp.secretString then ([req], .error "Secret value is empty")
      else
        match env.parseSecret (resp.secretString.getD "") with
        | .error m => ([req], .error m)
        | .ok sec =>
          if ¬ (truthy sec.apiKey ∧ truthy sec.apiSecret) then
            ([req], .error "Secret must contain apiKey and apiSecret fields")
          else ([req], .ok (sec.apiKey.getD "", sec.apiSecret.getD ""))
  else
    if ¬ (truthy env.apiKeyEnv ∧ truthy env.apiSecretEnv) then
      ([], .error "Missing credentials: provide SECRET_NAME or API_KEY/API_SECRET")
    else ([], .ok (env.apiKeyEnv.getD "", env.apiSecretEnv.getD ""))

/-- The size-limit error message of the source. -/
def sizeMsg (len : Nat) (maxB : Int) : String :=
  "Snapshot size (" ++ Nat.repr len ++ " bytes) exceeds maximum allowed (" ++
    (if maxB < 0 then "-" ++ Nat.repr maxB.natAbs else Nat.repr maxB.natAbs) ++ " bytes)"

/-- The size guard `snapshotBytes.length > maxSnapshotBytes` of the source:
JavaScript string length (UTF-16 code units) compared against the parsed
limit; a NaN limit (unparsable env var) makes the comparison false. -/
def sizeExceeds (len : Nat) (maxB : Option Int) : Bool :=
  match maxB with
  | none => false
  | some m => (len : Int) > m

/-- The CloudFormation custom-resource response `Data` object. -/
structure RespData where
  EventId : String
  IngestStatus : String
  Action : String
  Timestamp : Option String
  ContentHash : Option String
  Error : Option String
deriving DecidableEq

/-- The CloudFormation custom-resource response. -/
structure Response where
  PhysicalResourceId : String
  Data : RespData
deriving DecidableEq

/-- `buildResponse` of the source: `ContentHash` and `Error` are attached
only when truthy. -/
def buildResponse (eventId status action : String) (timestamp : Option String)
    (contentHash : Option String) (errorMessage : Option String) : Response :=
  { PhysicalResourceId := eventId,
    Data :=
      { EventId := eventId, IngestStatus := status, Action := action,
        Timestamp := timestamp,
        ContentHash := if truthy contentHash then some (contentHash.getD "") else none,
        Error := if truthy errorMessage then some (errorMessage.getD "") else none } }

/-- The body of the handler try block. Returns the emitted remote calls and
either the success response or the thrown message paired with the value the
mutable `contentHash` variable holds at the throw (empty before the hash is
computed, the computed hash afterwards). -/
def tryIngest (env : Env) (requestType apiBaseUrl : String) (maxBytes : Option Int)
    (eventId : String) : List NetCall × Except (String × String) Response :=
  match env.fileRead with
  | .error m => ([], .error (m, ""))
  | .ok snapshotBytes =>
  match env.parseSnapshot snapshotBytes with
  | .error m => ([], .error (m, ""))
  | .ok snap =>
  let contentHash := "sha256:" ++ sha256HexOfString snapshotBytes
  match getCredentials env with
  | (tr, .error m) => (tr, .error (m, contentHash))
  | (tr, .ok _creds) =>
  if requestType = "Delete" then
    let payload : SnapshotRefPayload :=
      { action := "DELETE", appId := snap.appId, eventId := eventId,
        contentHash := none, datastoreType := snap.datastoreType,
        datastoreArn := none, resourceId := snap.resourceId,
        stackName := snap.stackName }
    let req := NetCall.postSnapshotRef (apiBaseUrl ++ "/ingest/snapshot-ref") payload
    match httpOutcome (env.net req) with
    | .error m => (tr ++ [req], .error (m, contentHash))
    | .ok body =>
      match env.parseSnapshotRefResp body with
      | .error m => (tr ++ [req], .error (m, contentHash))
      | .ok _ =>
        (tr ++ [req], .ok (buildResponse eventId "SUCCESS" "DELETE" snap.capturedAt none none))
  else
    if sizeExceeds (jsStrLength snapshotBytes) maxBytes then
      (tr, .error (sizeMsg (jsStrLength snapshotBytes) (maxBytes.getD 0), contentHash))
    else
    let preq := NetCall.postUploadUrl (apiBaseUrl ++ "/ingest/upload-url") snap.appId
      eventId contentHash
    match httpOutcome (env.net preq) with
    | .error m => (tr ++ [preq], .error (m, contentHash))
    | .ok pbody =>
    match env.parseUploadUrlResp pbody with
    | .error m => (tr ++ [preq], .error (m, contentHash))
    | .ok uploadUrl =>
    match uploadUrl with
    | none => (tr ++ [preq], .error ("Invalid URL", contentHash))
    | some uurl =>
    let ureq := NetCall.putS3 uurl snapshotBytes
    match httpOutcome (env.net ureq) with
    | .error m => (tr ++ [preq, ureq], .error (m, contentHash))
    | .ok _ =>
    match snap.dataStore with
    | none =>
      (tr ++ [preq, ureq], .error ("Cannot read properties of undefined", contentHash))
    | some ds =>
    let creq := NetCall.postSnapshotRef (apiBaseUrl ++ "/ingest/snapshot-ref")
      { action := "UPSERT", appId := snap.appId, eventId := eventId,
        contentHash := some contentHash, datastoreType := snap.datastoreType,
        datastoreArn := ds.arn, resourceId := snap.resourceId,
        stackName := snap.stackName }
    match httpOutcome (env.net creq) with
    | .error m => (tr ++ [preq, ureq, creq], .error (m, contentHash))
    | .ok cbody =>
    match env.parseSnapshotRefResp cbody with
    | .error m => (tr ++ [preq, ureq, creq], .error (m, contentHash))
    | .ok _ =>
      (tr ++ [preq, ureq, creq],
        .ok (buildResponse eventId "SUCCESS" "UPSERT" snap.capturedAt (some contentHash) none))

/-- The effective failure mode: `process.env.FAILURE_MODE || "BEST_EFFORT"`. -/
def effFailureMode (env : Env) : String :=
  orElseStr env.failureModeEnv "BEST_EFFORT"

/-- The effective API base URL. -/
def effApiBaseUrl (env : Env) : String :=
  orElseStr env.apiBaseUrlEnv DEFAULT_API_BASE_URL

/-- The effective snapshot size limit:
`parseInt(process.env.CHAIM_MAX_SNAPSHOT_BYTES || String(DEFAULT), 10)`. -/
def effMaxSnapshotBytes (env : Env) : Option Int :=
  parseIntDec (orElseStr env.maxSnapshotBytesEnv (Nat.repr DEFAULT_MAX_SNAPSHOT_BYTES))

/-- The try block of the handler with the handler-computed arguments. -/
def handlerTry (env : Env) : List NetCall × Except (String × String) Response :=
  tryIngest env env.requestType (effApiBaseUrl env) (effMaxSnapshotBytes env) env.uuid

/-- The Lambda handler: run the try block; on a throw, STRICT mode re-throws
to CloudFormation while any other mode returns a success carrying
`IngestStatus = "FAILED"` and the error message. -/
def handler (env : Env) : List NetCall × Except String Response :=
  match handlerTry env with
  | (tr, .ok r) => (tr, .ok r)
  | (tr, .error (m, hash)) =>
    if effFailureMode env = "STRICT" then (tr, .error m)
    else
      (tr, .ok (buildResponse env.uuid "FAILED"
        (if env.requestType = "Delete" then "DELETE" else "UPSERT")
        (some env.now) (some hash) (some m)))

/-! ### Handler lemmas -/

/-- Recognizer for presign calls in a trace. -/
def isUploadUrlCall (c : NetCall) : Bool :=
  match c with
  | .postUploadUrl _ _ _ _ => true
  | _ => false

/-- Recognizer for S3 PUT calls in a trace. -/
def isPutS3Call (c : NetCall) : Bool :=
  match c with
  | .putS3 _ _ => true
  | _ => false

/-- Recognizer for snapshot-ref calls in a trace. -/
def isSnapshotRefCall (c : NetCall) : Bool :=
  match c with
  | .postSnapshotRef _ _ => true
  | _ => false

/-- Recognizer for Secrets Manager calls in a trace. -/
def isSecretsGetCall (c : NetCall) : Bool :=
  match c with
  | .secretsGet _ => true
  | _ => false

theorem getCredentials_trace (env : Env) :
    (getCredentials env).1 = [] ∨
      ∃ sn, (getCredentials env).1 = [NetCall.secretsGet sn] := by
  unfold getCredentials
  repeat' split
  all_goals simp

theorem tryIngest_ok_eventId (env : Env) (rt url : String) (mb : Option Int)
    (eid : String) (tr : List NetCall) (r : Response)
    (h : tryIngest env rt url mb eid = (tr, Except.ok r)) :
    r.Data.EventId = eid ∧ r.PhysicalResourceId = eid := by
  unfold tryIngest at h
  repeat' (first | (split at h) | (dsimp only at h))
  all_goals simp only [Prod.mk.injEq] at h
  all_goals obtain ⟨h1, h2⟩ := h
  all_goals first
    | exact Except.noConfusion h2
    | (injection h2 with h3; subst h3; exact ⟨rfl, rfl⟩)

theorem handler_trace (env : Env) : (handler env).1 = (handlerTry env).1 := by
  unfold handler
  repeat' split
  all_goals simp_all

theorem tryIngest_hash_calls (env : Env) (rt url : String) (mb : Option Int)
    (eid s : String) (tr : List NetCall) (res : Except (String × String) Response)
    (hfile : env.fileRead = Except.ok s)
    (h : tryIngest env rt url mb eid = (tr, res)) :
    (∀ u a e c, NetCall.postUploadUrl u a e c ∈ tr →
      c = "sha256:" ++ sha256HexOfString s) ∧
    (∀ u b, NetCall.putS3 u b ∈ tr → b = s) ∧
    (rt ≠ "Delete" → ∀ u p, NetCall.postSnapshotRef u p ∈ tr →
      p.contentHash = some ("sha256:" ++ sha256HexOfString s)) := by
  unfold tryIngest at h
  rw [hfile] at h
  repeat' (first | (split at h) | (dsimp only at h))
  all_goals simp only [Prod.mk.injEq] at h
  all_goals obtain ⟨h1, h2⟩ := h
  all_goals subst h1
  all_goals rcases getCredentials_trace env with hcr | ⟨sn, hcr⟩
  all_goals simp_all

theorem tryIngest_single_attempt (env : Env) (rt url : String) (mb : Option Int)
    (eid : String) (tr : List NetCall) (res : Except (String × String) Response)
    (h : tryIngest env rt url mb eid = (tr, res)) :
    tr.countP isUploadUrlCall ≤ 1 ∧ tr.countP isPutS3Call ≤ 1 ∧
    tr.countP isSnapshotRefCall ≤ 1 ∧ tr.countP isSecretsGetCall ≤ 1 := by
  unfold tryIngest at h
  repeat' (first | (split at h) | (dsimp only at h))
  all_goals simp only [Prod.mk.injEq] at h
  all_goals obtain ⟨h1, h2⟩ := h
  all_goals subst h1
  all_goals rcases getCredentials_trace env with hcr | ⟨sn, hcr⟩
  all_goals simp_all [List.countP_append, List.countP_cons,
    isUploadUrlCall, isPutS3Call, isSnapshotRefCall, isSecretsGetCall]

theorem tryIngest_delete_ignores_max (env : Env) (rt url : String)
    (mb mb' : Option Int) (eid : String) (hrt : rt = "Delete") :
    tryIngest env rt url mb eid = tryIngest env rt url mb' eid := by
  subst hrt
  unfold tryIngest
  repeat' (first | split | dsimp only)
  all_goals simp_all

theorem tryIngest_delete_calls (env : Env) (rt url : String) (mb : Option Int)
    (eid : String) (tr : List NetCall) (res : Except (String × String) Response)
    (hrt : rt = "Delete") (h : tryIngest env rt url mb eid = (tr, res)) :
    (∀ u a e c, NetCall.postUploadUrl u a e c ∉ tr) ∧
    (∀ u b, NetCall.putS3 u b ∉ tr) ∧
    (∀ s snap u p, env.fileRead = Except.ok s → env.parseSnapshot s = Except.ok snap →
      NetCall.postSnapshotRef u p ∈ tr →
      p.action = "DELETE" ∧ p.resourceId = snap.resourceId ∧ p.contentHash = none ∧
        p.eventId = eid ∧ p.stackName = snap.stackName ∧
        p.datastoreType = snap.datastoreType) := by
  subst hrt
  unfold tryIngest at h
  repeat' (first | (split at h) | (dsimp only at h))
  all_goals simp only [Prod.mk.injEq] at h
  all_goals obtain ⟨h1, h2⟩ := h
  all_goals subst h1
  all_goals rcases getCredentials_trace env with hcr | ⟨sn, hcr⟩
  all_goals simp_all
  all_goals (intro s snap u p hs hsp hu hp; subst hs; simp_all)

theorem tryIngest_size_guard (env : Env) (rt url : String) (mb : Option Int)
    (eid s : String) (snap : SnapshotPayload) (tr0 : List NetCall)
    (creds : String × String) (m : Int)
    (hrt : rt ≠ "Delete") (hfile : env.fileRead = Except.ok s)
    (hsnap : env.parseSnapshot s = Except.ok snap)
    (hcred : getCredentials env = (tr0, Except.ok creds))
    (hmb : mb = some m) (hsz : (jsStrLength s : Int) > m) :
    tryIngest env rt url mb eid =
      (tr0, Except.error (sizeMsg (jsStrLength s) m,
        "sha256:" ++ sha256HexOfString s)) := by
  unfold tryIngest
  rw [hfile]
  dsimp only
  rw [hsnap]
  dsimp only
  rw [hcred]
  dsimp only
  rw [if_neg hrt]
  have hex : sizeExceeds (jsStrLength s) mb = true := by
    simp [sizeExceeds, hmb]
    omega
  rw [hmb] at hex ⊢
  rw [if_pos hex]
  simp

/-! ### Concrete environments for witnesses and counterexamples -/

/-- A network that answers every call with HTTP 200. -/
def okNet : NetCall → NetOutcome := fun _ => NetOutcome.respond 200 "resp"

/-- A concrete parsed snapshot payload. -/
def demoSnap : SnapshotPayload :=
  ⟨some "acme", some "T__User", some "Stack1", some "dynamodb",
    some ⟨some "arn:tbl"⟩, some "2026-01-01T00:00:00Z"⟩

/-- A concrete fully healthy Create invocation environment with direct
credentials. -/
def baseEnv : Env :=
  { requestType := "Create", requestId := "req-1",
    failureModeEnv := none, apiBaseUrlEnv := none, maxSnapshotBytesEnv := none,
    secretNameEnv := none, apiKeyEnv := some "k", apiSecretEnv := some "s",
    uuid := "uuid-1", now := "2026-02-03T04:05:06Z",
    fileRead := Except.ok "snapbytes",
    parseSnapshot := fun _ => Except.ok demoSnap,
    secretsFetch := Except.error "no secrets",
    parseSecret := fun _ => Except.error "SyntaxError",
    net := okNet,
    parseUploadUrlResp := fun _ => Except.ok (some "https://s3.example/put"),
    parseSnapshotRefResp := fun _ => Except.ok () }

/-- The content hash of the demo snapshot bytes. -/
def demoHash : String := "sha256:" ++ sha256HexOfString "snapbytes"

/-- `baseEnv` with every network call failing with a connection error. -/
def failEnv : Env := { baseEnv with net := fun _ => NetOutcome.netError "ECONNRESET" }

/-- `failEnv` under STRICT failure mode. -/
def failEnvStrict : Env := { failEnv with failureModeEnv := some "STRICT" }

/-! ### Claim theorems for the Ingestion Client -/

/-- C1 counterexample: two invocations belonging to the same orchestrator
operation (identical environment, same `RequestId`) have their fresh UUID
draws as eventIds, and those differ — the handler does not reuse the first
attempt's event identifier. -/
theorem eventId_reuse_counterexample :
    baseEnv.requestId = ({ baseEnv with uuid := "uuid-2" } : Env).requestId ∧
    (handler baseEnv).2 = Except.ok (buildResponse "uuid-1" "SUCCESS" "UPSERT"
      (some "2026-01-01T00:00:00Z") (some demoHash) none) ∧
    (handler { baseEnv with uuid := "uuid-2" }).2 =
      Except.ok (buildResponse "uuid-2" "SUCCESS" "UPSERT"
        (some "2026-01-01T00:00:00Z") (some demoHash) none) ∧
    "uuid-1" ≠ "uuid-2" :=
  ⟨rfl, rfl, rfl, by decide⟩

/-- C1 (amended): the handler mints a fresh event identifier on every
invocation — the eventId it reports (both `Data.EventId` and
`PhysicalResourceId`) is exactly that invocation's `crypto.randomUUID()`
draw, and the handler never reads the orchestrator request identifier, so
its output is unchanged under any `RequestId`. -/
theorem handler_mints_fresh_eventId (env : Env) (rid : String) :
    handler { env with requestId := rid } = handler env ∧
    ∀ r, (handler env).2 = Except.ok r →
      r.Data.EventId = env.uuid ∧ r.PhysicalResourceId = env.uuid := by
  constructor
  · rfl
  · intro r hr
    unfold handler at hr
    rcases hht : handlerTry env with ⟨tr, res⟩
    rw [hht] at hr
    cases res with
    | ok r0 =>
      simp only at hr
      have hr0 : r0 = r := by
        simpa using hr
      subst hr0
      exact tryIngest_ok_eventId env env.requestType (effApiBaseUrl env)
        (effMaxSnapshotBytes env) env.uuid tr r0 hht
    | error me =>
      obtain ⟨m, hash⟩ := me
      simp only at hr
      by_cases hst : effFailureMode env = "STRICT"
      · rw [if_pos hst] at hr
        exact Except.noConfusion hr
      · rw [if_neg hst] at hr
        have hr0 : buildResponse env.uuid "FAILED"
            (if env.requestType = "Delete" then "DELETE" else "UPSERT")
            (some env.now) (some hash) (some m) = r := by
          simpa using hr
        rw [← hr0]
        exact ⟨rfl, rfl⟩

/-- Witness for the amended C1 at the concrete healthy environment. -/
theorem handler_mints_fresh_eventId_witness :
    handler { baseEnv with requestId := "req-other" } = handler baseEnv ∧
    (buildResponse "uuid-1" "SUCCESS" "UPSERT" (some "2026-01-01T00:00:00Z")
        (some demoHash) none).Data.EventId = "uuid-1" ∧
    (buildResponse "uuid-1" "SUCCESS" "UPSERT" (some "2026-01-01T00:00:00Z")
        (some demoHash) none).PhysicalResourceId = "uuid-1" :=
  ⟨(handler_mints_fresh_eventId baseEnv "req-other").1,
   (handler_mints_fresh_eventId baseEnv "req-other").2
     (buildResponse "uuid-1" "SUCCESS" "UPSERT" (some "2026-01-01T00:00:00Z")
       (some demoHash) none) rfl⟩

/-- C2: whenever any step of the try block throws (message `m`), BEST_EFFORT
mode returns a non-throwing response whose `Data.IngestStatus` is `FAILED`
with the error message attached, while STRICT mode re-throws the same error
to the orchestrator. -/
theorem failure_mode_contract (env : Env) (tr : List NetCall) (m hash : String)
    (h : handlerTry env = (tr, Except.error (m, hash))) (hm : m ≠ "") :
    (effFailureMode env = "BEST_EFFORT" →
      ∃ r, (handler env).2 = Except.ok r ∧ r.Data.IngestStatus = "FAILED" ∧
        r.Data.Error = some m) ∧
    (effFailureMode env = "STRICT" → (handler env).2 = Except.error m) := by
  unfold handler
  rw [h]
  simp only
  constructor
  · intro hbe
    rw [hbe]
    rw [if_neg (by decide)]
    refine ⟨_, rfl, rfl, ?_⟩
    simp [buildResponse, truthy, hm]
  · intro hst
    rw [if_pos hst]

/-- Witness for C2: a transport failure under the default BEST_EFFORT mode
yields a FAILED response, the same failure under STRICT throws. -/
theorem failure_mode_contract_witness :
    (∃ r, (handler failEnv).2 = Except.ok r ∧ r.Data.IngestStatus = "FAILED" ∧
      r.Data.Error = some "ECONNRESET") ∧
    (handler failEnvStrict).2 = Except.error "ECONNRESET" :=
  ⟨(failure_mode_contract failEnv
      [NetCall.postUploadUrl "https://api.chaim.co/ingest/upload-url" (some "acme")
        "uuid-1" demoHash] "ECONNRESET" demoHash rfl (by decide)).1 rfl,
   (failure_mode_contract failEnvStrict
      [NetCall.postUploadUrl "https://api.chaim.co/ingest/upload-url" (some "acme")
        "uuid-1" demoHash] "ECONNRESET" demoHash rfl (by decide)).2 rfl⟩

/-- C7: for Create/Update ingestions, the content hash carried by the presign
request and the commit payload is `sha256:` followed by the SHA-256 digest of
exactly the snapshot bytes that are uploaded by the presigned PUT (the raw
file bytes, which do not contain the hash field); since the hash is a pure
function of those bytes, two invocations over identical snapshot bytes send
identical content hashes. -/
theorem contentHash_over_uploaded_bytes (env : Env) (s : String)
    (hfile : env.fileRead = Except.ok s) :
    (∀ u a e c, NetCall.postUploadUrl u a e c ∈ (handler env).1 →
      c = "sha256:" ++ sha256HexOfString s) ∧
    (∀ u b, NetCall.putS3 u b ∈ (handler env).1 → b = s) ∧
    (env.requestType ≠ "Delete" → ∀ u p, NetCall.postSnapshotRef u p ∈ (handler env).1 →
      p.contentHash = some ("sha256:" ++ sha256HexOfString s)) := by
  rw [handler_trace]
  rcases hht : handlerTry env with ⟨tr, res⟩
  have hc := tryIngest_hash_calls env env.requestType (effApiBaseUrl env)
    (effMaxSnapshotBytes env) env.uuid s tr res hfile hht
  simpa using hc

/-- Witness for C7 at the healthy environment: the uploaded body is the
snapshot bytes and the presign hash is the digest of those bytes. -/
theorem contentHash_over_uploaded_bytes_witness :
    (NetCall.putS3 "https://s3.example/put" "snapbytes" ∈ (handler baseEnv).1) ∧
    demoHash = "sha256:" ++ sha256HexOfString "snapbytes" :=
  ⟨by decide,
   (contentHash_over_uploaded_bytes baseEnv "snapbytes" rfl).1
     "https://api.chaim.co/ingest/upload-url" (some "acme") "uuid-1" demoHash
     (by decide)⟩

/-- C8 (amended): each of the remote calls (Secrets Manager fetch, presign,
S3 PUT, commit) is attempted at most once per invocation — the handler
implements no retry or backoff — while each attempt is bounded by the
30-second request timeout (`DEFAULT_REQUEST_TIMEOUT_MS = 30000`), whose
expiry aborts the request with the `Request timeout` error. -/
theorem http_calls_single_attempt (env : Env) (tr : List NetCall)
    (res : Except String Response) (h : handler env = (tr, res)) :
    tr.countP isUploadUrlCall ≤ 1 ∧ tr.countP isPutS3Call ≤ 1 ∧
    tr.countP isSnapshotRefCall ≤ 1 ∧ tr.countP isSecretsGetCall ≤ 1 ∧
    DEFAULT_REQUEST_TIMEOUT_MS = 30000 ∧
    httpOutcome NetOutcome.timeout = Except.error "Request timeout" := by
  have htr : tr = (handlerTry env).1 := by
    rw [← handler_trace, h]
  rcases hht : handlerTry env with ⟨tr0, res0⟩
  have hc := tryIngest_single_attempt env env.requestType (effApiBaseUrl env)
    (effMaxSnapshotBytes env) env.uuid tr0 res0 hht
  rw [hht] at htr
  subst htr
  exact ⟨hc.1, hc.2.1, hc.2.2.1, hc.2.2.2, rfl, rfl⟩

/-- C8 counterexample: a transient network failure on the presign call is not
retried — the trace holds exactly one presign attempt (not three), and the
invocation surfaces the failure. -/
theorem http_retry_counterexample :
    (handler failEnv).1 = [NetCall.postUploadUrl
      "https://api.chaim.co/ingest/upload-url" (some "acme") "uuid-1" demoHash] ∧
    (handler failEnv).1.countP isUploadUrlCall = 1 ∧
    (handler failEnv).2 = Except.ok (buildResponse "uuid-1" "FAILED" "UPSERT"
      (some "2026-02-03T04:05:06Z") (some demoHash) (some "ECONNRESET")) :=
  ⟨rfl, rfl, rfl⟩

/-- Witness for the amended C8 at the healthy environment. -/
theorem http_calls_single_attempt_witness :
    (handler baseEnv).1.countP isUploadUrlCall ≤ 1 ∧
    (handler baseEnv).1.countP isPutS3Call ≤ 1 ∧
    (handler baseEnv).1.countP isSnapshotRefCall ≤ 1 ∧
    (handler baseEnv).1.countP isSecretsGetCall ≤ 1 ∧
    DEFAULT_REQUEST_TIMEOUT_MS = 30000 ∧
    httpOutcome NetOutcome.timeout = Except.error "Request timeout" :=
  http_calls_single_attempt baseEnv (handler baseEnv).1 (handler baseEnv).2 rfl

/-- C9 (amended): for Create/Update invocations whose snapshot length — as
the source measures it, in UTF-16 code units of the decoded file text, which
coincides with the byte size for ASCII content — exceeds the parsed
`CHAIM_MAX_SNAPSHOT_BYTES` limit, the handler raises the size-limit error
after credential resolution (which in Secrets Manager mode is itself a
network call) and before any ingestion API call (presign, upload or commit),
and the error is surfaced per failure mode: thrown under STRICT, reported as
`IngestStatus = "FAILED"` under BEST_EFFORT. The snapshot is never
truncated: the trace carries no upload at all. -/
theorem size_guard (env : Env) (s : String) (snap : SnapshotPayload)
    (tr0 : List NetCall) (creds : String × String) (m : Int)
    (hrt : env.requestType ≠ "Delete") (hfile : env.fileRead = Except.ok s)
    (hsnap : env.parseSnapshot s = Except.ok snap)
    (hcred : getCredentials env = (tr0, Except.ok creds))
    (hmb : effMaxSnapshotBytes env = some m) (hsz : (jsStrLength s : Int) > m) :
    handlerTry env = (tr0, Except.error (sizeMsg (jsStrLength s) m,
      "sha256:" ++ sha256HexOfString s)) ∧
    (∀ c ∈ tr0, isSecretsGetCall c = true) ∧
    (effFailureMode env = "STRICT" →
      (handler env).2 = Except.error (sizeMsg (jsStrLength s) m)) ∧
    (effFailureMode env = "BEST_EFFORT" →
      (handler env).2 = Except.ok (buildResponse env.uuid "FAILED" "UPSERT"
        (some env.now) (some ("sha256:" ++ sha256HexOfString s))
        (some (sizeMsg (jsStrLength s) m)))) := by
  have h1 : handlerTry env = (tr0, Except.error (sizeMsg (jsStrLength s) m,
      "sha256:" ++ sha256HexOfString s)) := by
    unfold handlerTry
    exact tryIngest_size_guard env env.requestType (effApiBaseUrl env)
      (effMaxSnapshotBytes env) env.uuid s snap tr0 creds m hrt hfile hsnap hcred hmb hsz
  refine ⟨h1, ?_, ?_, ?_⟩
  · intro c hc
    rcases getCredentials_trace env with hcr | ⟨sn, hcr⟩
    · rw [hcred] at hcr
      simp only at hcr
      subst hcr
      simp at hc
    · rw [hcred] at hcr
      simp only at hcr
      subst hcr
      rcases List.mem_singleton.mp hc with rfl
      rfl
  · intro hst
    unfold handler
    rw [h1]
    simp only
    rw [if_pos hst]
  · intro hbe
    unfold handler
    rw [h1]
    simp only
    rw [hbe, if_neg (by decide), if_neg hrt]

/-- `baseEnv` with a 3-byte limit: the 9-byte snapshot exceeds it. -/
def envSize : Env := { baseEnv with maxSnapshotBytesEnv := some "3" }

/-- Witness for the amended C9. -/
theorem size_guard_witness :
    handlerTry envSize = ([], Except.error (sizeMsg (jsStrLength "snapbytes") 3,
      "sha256:" ++ sha256HexOfString "snapbytes")) ∧
    (handler envSize).2 = Except.ok (buildResponse "uuid-1" "FAILED" "UPSERT"
      (some "2026-02-03T04:05:06Z") (some ("sha256:" ++ sha256HexOfString "snapbytes"))
      (some (sizeMsg (jsStrLength "snapbytes") 3))) :=
  ⟨(size_guard envSize "snapbytes" demoSnap [] ("k", "s") 3 (by decide) rfl rfl rfl rfl
      (by decide)).1,
   (size_guard envSize "snapbytes" demoSnap [] ("k", "s") 3 (by decide) rfl rfl rfl rfl
      (by decide)).2.2.2 rfl⟩

/-- Non-ASCII snapshot whose UTF-8 byte size (2) exceeds the limit (1) while
its UTF-16 length (1) does not. -/
def envMultibyte : Env :=
  { baseEnv with fileRead := Except.ok "é", maxSnapshotBytesEnv := some "1" }

/-- `baseEnv` in Secrets Manager mode with a 3-byte limit. -/
def envSecretSize : Env :=
  { baseEnv with
    maxSnapshotBytesEnv := some "3"
    secretNameEnv := some "sec"
    secretsFetch := Except.ok ⟨some "secretjson"⟩
    parseSecret := fun _ => Except.ok ⟨some "k", some "s"⟩ }

/-- C9 counterexample: (a) a snapshot whose byte size exceeds the configured
maximum triggers no size-limit error at all — the handler happily ingests it,
because the source compares the UTF-16 string length, not bytes; and (b) in
Secrets Manager mode a network call (the secrets fetch) happens before the
size-limit error is raised. -/
theorem size_guard_counterexample :
    (utf8ByteSize "é" : Int) > 1 ∧ effMaxSnapshotBytes envMultibyte = some 1 ∧
    (handler envMultibyte).2 = Except.ok (buildResponse "uuid-1" "SUCCESS" "UPSERT"
      (some "2026-01-01T00:00:00Z") (some ("sha256:" ++ sha256HexOfString "é")) none) ∧
    (handler envSecretSize).1 = [NetCall.secretsGet "sec"] ∧
    (handler envSecretSize).2 = Except.ok (buildResponse "uuid-1" "FAILED" "UPSERT"
      (some "2026-02-03T04:05:06Z") (some ("sha256:" ++ sha256HexOfString "snapbytes"))
      (some (sizeMsg 9 3))) :=
  ⟨by decide, by rfl, by rfl, by rfl, by rfl⟩

/-- One handler unfolding used to compare runs that differ only in the
size-limit environment variable. -/
theorem handler_max_env (env : Env) (z : Option String) :
    handler { env with maxSnapshotBytesEnv := z } =
      match tryIngest env env.requestType (effApiBaseUrl env)
          (parseIntDec (orElseStr z (Nat.repr DEFAULT_MAX_SNAPSHOT_BYTES))) env.uuid with
      | (tr, Except.ok r) => (tr, Except.ok r)
      | (tr, Except.error (m, hash)) =>
        if effFailureMode env = "STRICT" then (tr, Except.error m)
        else (tr, Except.ok (buildResponse env.uuid "FAILED"
          (if env.requestType = "Delete" then "DELETE" else "UPSERT")
          (some env.now) (some hash) (some m))) := rfl

/-- C10: the size guardrail is enforced only on Create/Update — a Delete
invocation behaves identically under any `CHAIM_MAX_SNAPSHOT_BYTES` value,
performs no presign or upload, and its only ingestion call is the
deactivation notice: a snapshot-ref POST with action `DELETE`, no content
hash, and the `resourceId` read from the bundled snapshot. -/
theorem delete_skips_size_guard (env : Env) (x y : Option String)
    (hrt : env.requestType = "Delete") :
    handler { env with maxSnapshotBytesEnv := x } =
      handler { env with maxSnapshotBytesEnv := y } ∧
    (∀ u a e c, NetCall.postUploadUrl u a e c ∉ (handler env).1) ∧
    (∀ u b, NetCall.putS3 u b ∉ (handler env).1) ∧
    (∀ s snap u p, env.fileRead = Except.ok s → env.parseSnapshot s = Except.ok snap →
      NetCall.postSnapshotRef u p ∈ (handler env).1 →
      p.action = "DELETE" ∧ p.resourceId = snap.resourceId ∧ p.contentHash = none ∧
        p.eventId = env.uuid ∧ p.stackName = snap.stackName ∧
        p.datastoreType = snap.datastoreType) := by
  have hdel := tryIngest_delete_ignores_max env env.requestType (effApiBaseUrl env)
    (parseIntDec (orElseStr x (Nat.repr DEFAULT_MAX_SNAPSHOT_BYTES)))
    (parseIntDec (orElseStr y (Nat.repr DEFAULT_MAX_SNAPSHOT_BYTES))) env.uuid hrt
  refine ⟨?_, ?_⟩
  · rw [handler_max_env env x, handler_max_env env y, hdel]
  · rw [handler_trace]
    rcases hht : handlerTry env with ⟨tr, res⟩
    have hc := tryIngest_delete_calls env env.requestType (effApiBaseUrl env)
      (effMaxSnapshotBytes env) env.uuid tr res hrt hht
    simpa using hc

/-- The healthy environment as a Delete invocation. -/
def delEnv : Env := { baseEnv with requestType := "Delete" }

/-- Witness for C10: a huge configured limit and a tiny one give the same
Delete behaviour, and the concrete deactivation notice carries
`action = "DELETE"` and the snapshot's `resourceId`. -/
theorem delete_skips_size_guard_witness :
    handler { delEnv with maxSnapshotBytesEnv := some "1" } =
      handler { delEnv with maxSnapshotBytesEnv := some "99999999" } ∧
    ({ action := "DELETE", appId := some "acme", eventId := "uuid-1",
        contentHash := none, datastoreType := some "dynamodb", datastoreArn := none,
        resourceId := some "T__User", stackName := some "Stack1" } :
        SnapshotRefPayload).action = "DELETE" ∧
    ({ action := "DELETE", appId := some "acme", eventId := "uuid-1",
        contentHash := none, datastoreType := some "dynamodb", datastoreArn := none,
        resourceId := some "T__User", stackName := some "Stack1" } :
        SnapshotRefPayload).resourceId = demoSnap.resourceId :=
  ⟨(delete_skips_size_guard delEnv (some "1") (some "99999999") rfl).1,
   ((delete_skips_size_guard delEnv (some "1") (some "99999999") rfl).2.2.2
      "snapbytes" demoSnap "https://api.chaim.co/ingest/snapshot-ref"
      { action := "DELETE", appId := some "acme", eventId := "uuid-1",
        contentHash := none, datastoreType := some "dynamodb", datastoreArn := none,
        resourceId := some "T__User", stackName := some "Stack1" }
      rfl rfl (by decide)).1,
   ((delete_skips_size_guard delEnv (some "1") (some "99999999") rfl).2.2.2
      "snapbytes" demoSnap "https://api.chaim.co/ingest/snapshot-ref"
      { action := "DELETE", appId := some "acme", eventId := "uuid-1",
        contentHash := none, datastoreType := some "dynamodb", datastoreArn := none,
        resourceId := some "T__User", stackName := some "Stack1" }
      rfl rfl (by decide)).2.1⟩

end Chaim
